import Mathlib

/-!
Shallow embedding of the pyscrcpy session layer (src/scrcpy/client.py).

The external collaborators (adb transport, H.264 decoder, OS sockets) are
modelled at their interface, exactly as the spec scopes them out:
  * the video channel is a byte list; `recv n` yields `take n` of it;
  * an attempt to open the scrcpy channel is an environment `Nat → Bool`
    (attempt number ↦ success), driving the 30-attempt retry loop;
  * the decoder is a packet/frame source: a successful read carries the
    packets `codec.parse` yields for the read bytes, each packet the frame
    list `codec.decode` yields for it, in order;
  * `socket.close` and stream close are total operations (they do not
    raise), matching the transport contract.
Machine-level side effects (reads, sleeps, channel opens, listener calls,
cache writes) are reified as events in a trace so that ordering claims can
be stated.
-/

namespace Pyscrcpy

/-- A closeable OS resource (socket or adb stream).  `releaseCount` counts
the times the underlying descriptor was actually released; closing an
already-closed resource is a no-op, as for Python sockets. -/
structure Sock where
  isOpen : Bool
  releaseCount : Nat
deriving DecidableEq, Repr

def Sock.fresh : Sock := ⟨true, 0⟩

def Sock.close (s : Sock) : Sock :=
  ⟨false, s.releaseCount + (if s.isOpen then 1 else 0)⟩

/-- Ghost session phase from the spec's SessionState; the Python code
itself holds only the `alive` boolean. -/
inductive Phase where
  | created
  | started
  | stopped
deriving DecidableEq, Repr

/-- A decoded video frame after `to_ndarray(format="bgr24")`: the ndarray
shape is (height, width, 3); `pixelId` stands for the pixel payload so
distinct frames can be told apart. -/
structure Frame where
  width : Nat
  height : Nat
  pixelId : Nat
deriving DecidableEq, Repr

/-- State of `scrcpy.Client` (client.py `__init__`).  Listeners are
callback identifiers kept in registration order, one list per event kind
(the Python `listeners` dict).  `phase` is ghost instrumentation. -/
structure Client where
  alive : Bool
  last_frame : Option Frame
  resolution : Option (Nat × Nat)
  device_name : Option (List Char)
  listeners_frame : List Nat
  listeners_init : List Nat
  max_size : Nat
  bitrate : Nat
  max_fps : Nat
  block_frame : Bool
  stay_awake : Bool
  lock_screen_orientation : Int
  server_stream : Option Sock
  video_socket : Option Sock
  control_socket : Option Sock
  videoNonblocking : Bool
  phase : Phase
deriving DecidableEq, Repr

/-- `Client.__init__` with the constructor's defaults. -/
def Client.mkFresh (max_size : Nat := 0) (bitrate : Nat := 8000000)
    (max_fps : Nat := 0) (block_frame : Bool := false)
    (stay_awake : Bool := false) (lock_screen_orientation : Int := -1) :
    Client where
  alive := false
  last_frame := none
  resolution := none
  device_name := none
  listeners_frame := []
  listeners_init := []
  max_size := max_size
  bitrate := bitrate
  max_fps := max_fps
  block_frame := block_frame
  stay_awake := stay_awake
  lock_screen_orientation := lock_screen_orientation
  server_stream := none
  video_socket := none
  control_socket := none
  videoNonblocking := false
  phase := .created

/-- `Client.on_frame`: append to the frame listener list. -/
def Client.on_frame (c : Client) (l : Nat) : Client :=
  { c with listeners_frame := c.listeners_frame ++ [l] }

/-- `Client.on_init`: append to the init listener list. -/
def Client.on_init (c : Client) (l : Nat) : Client :=
  { c with listeners_init := c.listeners_init ++ [l] }

/-- `Client.stop`: clear `alive`, then close each of the three resources
that is set.  Ghost phase moves to `stopped`. -/
def Client.stop (c : Client) : Client :=
  { c with
    alive := false
    phase := .stopped
    server_stream := c.server_stream.map Sock.close
    control_socket := c.control_socket.map Sock.close
    video_socket := c.video_socket.map Sock.close }

/-! ### Strict UTF-8 decoding (Python `bytes.decode("utf-8")`) -/

/-- Decode one UTF-8 scalar from the head of a byte list, returning the
character and the number of bytes consumed.  Strict: rejects stray
continuation bytes, overlong forms, surrogates and values above U+10FFFF,
as CPython's strict codec does. -/
def utf8DecodeOne : List Nat → Option (Char × Nat)
  | [] => none
  | b :: rest =>
    if b < 0x80 then some (Char.ofNat b, 1)
    else if b < 0xC2 then none
    else if b < 0xE0 then
      match rest with
      | b1 :: _ =>
        if 0x80 ≤ b1 ∧ b1 < 0xC0 then
          some (Char.ofNat ((b - 0xC0) * 64 + (b1 - 0x80)), 2)
        else none
      | [] => none
    else if b < 0xF0 then
      match rest with
      | b1 :: b2 :: _ =>
        if (0x80 ≤ b1 ∧ b1 < 0xC0) ∧ (0x80 ≤ b2 ∧ b2 < 0xC0) then
          let cp := (b - 0xE0) * 4096 + (b1 - 0x80) * 64 + (b2 - 0x80)
          if cp < 0x800 then none
          else if 0xD800 ≤ cp ∧ cp < 0xE000 then none
          else some (Char.ofNat cp, 3)
        else none
      | _ => none
    else if b < 0xF5 then
      match rest with
      | b1 :: b2 :: b3 :: _ =>
        if (0x80 ≤ b1 ∧ b1 < 0xC0) ∧ (0x80 ≤ b2 ∧ b2 < 0xC0) ∧
            (0x80 ≤ b3 ∧ b3 < 0xC0) then
          let cp := (b - 0xF0) * 262144 + (b1 - 0x80) * 4096 +
            (b2 - 0x80) * 64 + (b3 - 0x80)
          if cp < 0x10000 ∨ 0x10FFFF < cp then none
          else some (Char.ofNat cp, 4)
        else none
      | _ => none
    else none

/-- Fuelled decoding loop; fuel bounds the number of scalars, which never
exceeds the byte count. -/
def utf8DecodeFuel : Nat → List Nat → Option (List Char)
  | _, [] => some []
  | 0, _ :: _ => none
  | fuel + 1, l@(_ :: _) =>
    match utf8DecodeOne l with
    | none => none
    | some (c, k) => (utf8DecodeFuel fuel (l.drop k)).map (c :: ·)

/-- Full strict UTF-8 decode of a byte list. -/
def utf8Decode (l : List Nat) : Option (List Char) :=
  utf8DecodeFuel l.length l

/-- Python `str.rstrip("\x00")`: drop trailing NUL characters. -/
def rstripNull (cs : List Char) : List Char :=
  (cs.reverse.dropWhile (fun ch => ch = Char.ofNat 0)).reverse

/-! ### Handshake (`Client.__init_server_connection`) -/

/-- Observable actions of the handshake, in the order they are performed. -/
inductive HsEvent where
  | openVideoAttempt (success : Bool)
  | sleep100ms
  | recvVideo (n : Nat) (got : List Nat)
  | openControl
  | setNonblocking
deriving DecidableEq, Repr

/-- Errors the handshake can raise.  The first three are Python
`ConnectionError`s; `unicodeError` is `UnicodeDecodeError` from
`decode("utf-8")`; `structError` is `struct.error` from
`struct.unpack(">HH", res)` on a buffer that is not exactly 4 bytes. -/
inductive HsError where
  | connectTimeout
  | noDummyByte
  | noDeviceName
  | unicodeError
  | structError
deriving DecidableEq, Repr

def HsError.isConnectionError : HsError → Bool
  | .connectTimeout | .noDummyByte | .noDeviceName => true
  | .unicodeError | .structError => false

/-- The `for _ in range(30)` retry loop: attempt `i`, and on `AdbError`
sleep 100 ms and try again; `env i` tells whether attempt `i` succeeds.
Returns the event trace and whether a connection was obtained. -/
def connectLoop (env : Nat → Bool) : Nat → Nat → List HsEvent × Bool
  | _, 0 => ([], false)
  | i, fuel + 1 =>
    if env i then ([.openVideoAttempt true], true)
    else
      let r := connectLoop env (i + 1) fuel
      (.openVideoAttempt false :: .sleep100ms :: r.1, r.2)

def countOpenControl : List HsEvent → Nat
  | [] => 0
  | .openControl :: r => countOpenControl r + 1
  | _ :: r => countOpenControl r

/-- A scan that holds exactly when no `openControl` event occurs before the
first successful one-byte (dummy) read. -/
def controlOpensAfterDummy : List HsEvent → Bool
  | [] => true
  | .openControl :: _ => false
  | .recvVideo 1 (_ :: _) :: _ => true
  | _ :: rest => controlOpensAfterDummy rest

/-- `Client.__init_server_connection`.  `env` drives the channel-open
retries; `buf` is the byte stream the video channel will deliver.  Fields
are written in the order the Python method assigns them, so a failure
leaves exactly the partial state the code leaves. -/
def initServerConnection (env : Nat → Bool) (buf : List Nat) (c : Client) :
    Client × List HsEvent × Except HsError Unit :=
  let conn := connectLoop env 0 30
  if conn.2 = false then (c, conn.1, .error .connectTimeout)
  else
    let c1 := { c with video_socket := some Sock.fresh }
    let dummy := buf.take 1
    let tr1 := conn.1 ++ [.recvVideo 1 dummy]
    if dummy.length = 0 then (c1, tr1, .error .noDummyByte)
    else
      let buf1 := buf.drop 1
      let c2 := { c1 with control_socket := some Sock.fresh }
      let nameBytes := buf1.take 64
      let tr2 := tr1 ++ [.openControl, .recvVideo 64 nameBytes]
      match utf8Decode nameBytes with
      | none => (c2, tr2, .error .unicodeError)
      | some cs =>
        let name := rstripNull cs
        let c3 := { c2 with device_name := some name }
        if name.length = 0 then (c3, tr2, .error .noDeviceName)
        else
          let res := (buf1.drop 64).take 4
          let tr3 := tr2 ++ [.recvVideo 4 res]
          match res with
          | [a, b, a2, b2] =>
            ({ c3 with
                resolution := some (a * 256 + b, a2 * 256 + b2)
                videoNonblocking := true },
              tr3 ++ [.setNonblocking], .ok ())
          | _ => (c3, tr3, .error .structError)

/-! ### `Client.start` -/

/-- `Client.__deploy_server`: push the jar and spawn the remote process,
keeping the shell stream. -/
def deployServer (c : Client) : Client :=
  { c with server_stream := some Sock.fresh }

inductive StartErr where
  | assertFailed
  | hs (e : HsError)
deriving DecidableEq, Repr

/-- Result of `Client.start` up to the point the demux loop is entered:
the client state, the handshake trace, the init listeners invoked (in
invocation order), and the outcome. -/
structure StartResult where
  client : Client
  hsTrace : List HsEvent
  initCalls : List Nat
  result : Except StartErr Unit
deriving Repr

/-- `Client.start` (minus the demux loop it then enters): assert the alive
flag is clear, deploy the server, run the handshake, set `alive`, and fire
the init listeners synchronously in registration order. -/
def start (env : Nat → Bool) (buf : List Nat) (c : Client) : StartResult :=
  if c.alive then ⟨c, [], [], .error .assertFailed⟩
  else
    let c1 := deployServer c
    match initServerConnection env buf c1 with
    | (c2, tr, .error e) => ⟨c2, tr, [], .error (.hs e)⟩
    | (c2, tr, .ok ()) =>
      let c3 := { c2 with alive := true, phase := .started }
      ⟨c3, tr, c3.listeners_init, .ok ()⟩

/-! ### Demux loop (`Client.__stream_loop`) -/

/-- Outcome of one `recv(0x10000)` call on the non-blocking video socket.
`data` carries what the decoder yields for the bytes read: the packet list
from `codec.parse(raw)`, each packet with the frame list `codec.decode`
produces for it, already converted by `to_ndarray(format="bgr24")`. -/
inductive ReadResult where
  | data (packets : List (List Frame))
  | wouldBlock
  | ioError
deriving DecidableEq, Repr

/-- One loop iteration's environment: the read outcome, and whether a
concurrent `stop()` lands between this iteration's `while` check and its
next read of the alive flag. -/
structure IterInput where
  read : ReadResult
  stopDuring : Bool
deriving DecidableEq, Repr

/-- Observable actions of the demux loop.  `cacheUpdate f` is the pair of
assignments `self.last_frame = frame; self.resolution = ...`; `emit l f`
is the call of frame listener `l` with frame `f` (`none` is Python
`None`). -/
inductive Event where
  | cacheUpdate (f : Frame)
  | emit (l : Nat) (f : Option Frame)
  | sleep10ms
deriving DecidableEq, Repr

inductive LoopOutcome where
  | finished
  | errored
deriving DecidableEq, Repr

/-- Handle one decoded frame: update the last-frame cache and resolution,
then call every frame listener in registration order. -/
def dispatchFrame (c : Client) (f : Frame) : Client × List Event :=
  ({ c with last_frame := some f, resolution := some (f.width, f.height) },
    .cacheUpdate f :: c.listeners_frame.map (fun l => .emit l (some f)))

def dispatchFrames (c : Client) : List Frame → Client × List Event
  | [] => (c, [])
  | f :: fs =>
    let r1 := dispatchFrame c f
    let r2 := dispatchFrames r1.1 fs
    (r2.1, r1.2 ++ r2.2)

/-- Effect of a concurrent `stop()` call if the schedule says one happens
here. -/
def applyStop (c : Client) : Bool → Client
  | true => c.stop
  | false => c

/-- `Client.__stream_loop`, run over a finite schedule of iteration
inputs: `while self.alive`, then read; on data dispatch every decoded
frame; on `BlockingIOError` sleep 10 ms and, unless `block_frame`, emit
`None` to every frame listener; on `OSError` re-raise exactly when the
alive flag is still set, else swallow it. -/
def streamLoop (c : Client) : List IterInput → Client × List Event × LoopOutcome
  | [] => (c, [], .finished)
  | it :: rest =>
    if c.alive then
      match it.read with
      | .data packets =>
        let r1 := dispatchFrames c packets.flatten
        let r2 := streamLoop (applyStop r1.1 it.stopDuring) rest
        (r2.1, r1.2 ++ r2.2.1, r2.2.2)
      | .wouldBlock =>
        let evs := Event.sleep10ms ::
          (if c.block_frame then []
            else c.listeners_frame.map (fun l => Event.emit l none))
        let r2 := streamLoop (applyStop c it.stopDuring) rest
        (r2.1, evs ++ r2.2.1, r2.2.2)
      | .ioError =>
        let c2 := applyStop c it.stopDuring
        if c2.alive then (c2, [], .errored)
        else
          let r2 := streamLoop c2 rest
          (r2.1, r2.2.1, r2.2.2)
    else (c, [], .finished)

/-! ### Control-channel atomicity

Modelled from the spec: the body of `ControlSender.send` (module
`scrcpy/control.py`, not present in the excerpted source) serializes one
command record and writes it to the control socket with the whole write
guarded by the single mutual-exclusion lock `control_socket_lock`
(client.py line 77).  Two concurrent senders are two threads; each
acquires the lock, writes its record's bytes one `send` chunk at a time,
and releases the lock. -/

inductive TStatus where
  | idle
  | writing (written rest : List Nat)
  | done (written : List Nat)
deriving DecidableEq, Repr

inductive LockSt where
  | free
  | held0
  | held1
deriving DecidableEq, Repr

/-- Shared state of two concurrent `send` calls: the lock, the byte
stream written to the control socket so far, and each thread's status. -/
structure CState where
  lock : LockSt
  out : List Nat
  th0 : TStatus
  th1 : TStatus
deriving DecidableEq, Repr

def CState.init : CState := ⟨.free, [], .idle, .idle⟩

/-- Interleaving semantics of the two lock-guarded writes of records `r0`
and `r1`: a thread acquires the free lock, then writes its bytes in any
number of scheduler-interleavable steps, then releases. -/
inductive CStep (r0 r1 : List Nat) : CState → CState → Prop where
  | acquire0 (s : CState) : s.lock = .free → s.th0 = .idle →
      CStep r0 r1 s ⟨.held0, s.out, .writing [] r0, s.th1⟩
  | write0 (s : CState) (w : List Nat) (b : Nat) (rest : List Nat) :
      s.th0 = .writing w (b :: rest) →
      CStep r0 r1 s ⟨s.lock, s.out ++ [b], .writing (w ++ [b]) rest, s.th1⟩
  | release0 (s : CState) (w : List Nat) : s.th0 = .writing w [] →
      CStep r0 r1 s ⟨.free, s.out, .done w, s.th1⟩
  | acquire1 (s : CState) : s.lock = .free → s.th1 = .idle →
      CStep r0 r1 s ⟨.held1, s.out, s.th0, .writing [] r1⟩
  | write1 (s : CState) (w : List Nat) (b : Nat) (rest : List Nat) :
      s.th1 = .writing w (b :: rest) →
      CStep r0 r1 s ⟨s.lock, s.out ++ [b], s.th0, .writing (w ++ [b]) rest⟩
  | release1 (s : CState) (w : List Nat) : s.th1 = .writing w [] →
      CStep r0 r1 s ⟨.free, s.out, s.th0, .done w⟩

/-- States reachable from the initial state under some interleaving. -/
inductive CReach (r0 r1 : List Nat) : CState → Prop where
  | init : CReach r0 r1 CState.init
  | step {s s' : CState} : CReach r0 r1 s → CStep r0 r1 s s' → CReach r0 r1 s'

/-- Bytes a thread has contributed to the socket so far. -/
def wrOf : TStatus → List Nat
  | .idle => []
  | .writing w _ => w
  | .done w => w

/-- A resource in the state reachable before any `stop`: absent, or open
and never released. -/
def preStopRes : Option Sock → Prop
  | none => True
  | some s => s.isOpen = true ∧ s.releaseCount = 0

/-- A resource whose underlying descriptor was released exactly once. -/
def releasedExactlyOnce : Option Sock → Prop
  | none => True
  | some s => s.isOpen = false ∧ s.releaseCount = 1

/-- Invariant of the two-sender lock protocol: a writing thread holds the
lock and its record decomposes into written plus pending bytes; a done
thread wrote its full record; and the socket stream is always one
thread's contribution followed contiguously by the other's. -/
def Inv (r0 r1 : List Nat) (s : CState) : Prop :=
  (∀ w rest, s.th0 = .writing w rest → s.lock = .held0 ∧ r0 = w ++ rest) ∧
  (∀ w rest, s.th1 = .writing w rest → s.lock = .held1 ∧ r1 = w ++ rest) ∧
  (∀ w, s.th0 = .done w → w = r0) ∧
  (∀ w, s.th1 = .done w → w = r1) ∧
  (s.lock = .held0 → s.out = wrOf s.th1 ++ wrOf s.th0) ∧
  (s.lock = .held1 → s.out = wrOf s.th0 ++ wrOf s.th1) ∧
  (s.lock = .free →
    s.out = wrOf s.th0 ++ wrOf s.th1 ∨ s.out = wrOf s.th1 ++ wrOf s.th0)

/-! ### Helper lemmas -/

theorem Sock.close_close (s : Sock) : s.close.close = s.close := by
  simp [Sock.close]

theorem streamLoop_not_alive (c : Client) (h : c.alive = false) :
    ∀ l, streamLoop c l = (c, [], .finished) := by
  intro l
  cases l with
  | nil => rfl
  | cons it rest => simp [streamLoop, h]

/-- C10: `stop()` changes only the alive flag and the closeable resources;
the last-frame cache, resolution, device name and both listener lists are
preserved, so they remain readable after the session is stopped. -/
theorem stop_frame_effect (c : Client) :
    c.stop.last_frame = c.last_frame ∧
    c.stop.resolution = c.resolution ∧
    c.stop.device_name = c.device_name ∧
    c.stop.listeners_frame = c.listeners_frame ∧
    c.stop.listeners_init = c.listeners_init ∧
    c.stop.alive = false := by
  simp [Client.stop]

/-- C8: `stop()` is idempotent-safe: a second `stop()` is a no-op (so it
also cannot throw, every close in the model being total), closing works
independently per resource, and after `stop()` each resource that existed
open has been released exactly once (absent resources, as before a
successful `start()`, are untouched). -/
theorem stop_idempotent_release_once (c : Client)
    (hv : preStopRes c.video_socket) (hc : preStopRes c.control_socket)
    (hs : preStopRes c.server_stream) :
    c.stop.stop = c.stop ∧
    releasedExactlyOnce c.stop.video_socket ∧
    releasedExactlyOnce c.stop.control_socket ∧
    releasedExactlyOnce c.stop.server_stream := by
  refine ⟨?_, ?_, ?_, ?_⟩
  · simp [Client.stop, Option.map_map, Function.comp_def, Sock.close_close]
  · cases hvs : c.video_socket with
    | none => simp [Client.stop, hvs, releasedExactlyOnce]
    | some s =>
      rw [hvs] at hv
      obtain ⟨h1, h2⟩ := hv
      simp [Client.stop, hvs, releasedExactlyOnce, Sock.close, h1, h2]
  · cases hcs : c.control_socket with
    | none => simp [Client.stop, hcs, releasedExactlyOnce]
    | some s =>
      rw [hcs] at hc
      obtain ⟨h1, h2⟩ := hc
      simp [Client.stop, hcs, releasedExactlyOnce, Sock.close, h1, h2]
  · cases hss : c.server_stream with
    | none => simp [Client.stop, hss, releasedExactlyOnce]
    | some s =>
      rw [hss] at hs
      obtain ⟨h1, h2⟩ := hs
      simp [Client.stop, hss, releasedExactlyOnce, Sock.close, h1, h2]

theorem stop_idempotent_release_once_witness :
    let c := { Client.mkFresh with
      server_stream := some Sock.fresh
      video_socket := some Sock.fresh
      control_socket := some Sock.fresh }
    c.stop.stop = c.stop ∧
    releasedExactlyOnce c.stop.video_socket ∧
    releasedExactlyOnce c.stop.control_socket ∧
    releasedExactlyOnce c.stop.server_stream :=
  stop_idempotent_release_once _ ⟨rfl, rfl⟩ ⟨rfl, rfl⟩ ⟨rfl, rfl⟩

/-- C2: an iteration whose read would block sleeps ≈10 ms and then, when
`block_frame` is false, calls every frame listener exactly once with
`None` in registration order; when `block_frame` is true it calls no
listener. -/
theorem wouldBlock_iteration (c : Client) (h : c.alive = true) (stopd : Bool) :
    streamLoop c [⟨.wouldBlock, stopd⟩] =
      (applyStop c stopd,
        Event.sleep10ms ::
          (if c.block_frame then []
            else c.listeners_frame.map (fun l => Event.emit l none)),
        .finished) := by
  simp [streamLoop, h]

theorem wouldBlock_iteration_witness :
    streamLoop { Client.mkFresh with alive := true, listeners_frame := [7, 8] }
        [⟨.wouldBlock, false⟩] =
      ({ Client.mkFresh with alive := true, listeners_frame := [7, 8] },
        [Event.sleep10ms, Event.emit 7 none, Event.emit 8 none], .finished) := by
  have h := wouldBlock_iteration
    { Client.mkFresh with alive := true, listeners_frame := [7, 8] } rfl false
  simpa using h

/-- C6: a hard I/O error on the video-socket read is propagated out of the
loop exactly when the alive flag is still set at the `except` handler; if
a concurrent `stop()` already cleared it, the error is swallowed and the
loop exits normally with no further iteration processed. -/
theorem ioError_propagation (c : Client) (h : c.alive = true) (stopd : Bool)
    (rest : List IterInput) :
    streamLoop c (⟨.ioError, stopd⟩ :: rest) =
      if stopd then (c.stop, [], .finished) else (c, [], .errored) := by
  cases stopd with
  | false => simp [streamLoop, h, applyStop]
  | true =>
    have hstop : (c.stop).alive = false := by simp [Client.stop]
    simp [streamLoop, h, applyStop, hstop, streamLoop_not_alive _ hstop]

theorem ioError_propagation_witness :
    (streamLoop { Client.mkFresh with alive := true }
        [⟨.ioError, false⟩, ⟨.wouldBlock, false⟩] =
      ({ Client.mkFresh with alive := true }, [], .errored)) ∧
    (streamLoop { Client.mkFresh with alive := true }
        [⟨.ioError, true⟩, ⟨.wouldBlock, false⟩] =
      ({ Client.mkFresh with alive := true }.stop, [], .finished)) := by
  constructor
  · simpa using ioError_propagation { Client.mkFresh with alive := true } rfl
      false [⟨.wouldBlock, false⟩]
  · simpa using ioError_propagation { Client.mkFresh with alive := true } rfl
      true [⟨.wouldBlock, false⟩]

theorem dispatchFrames_fields (c : Client) (fs : List Frame) :
    (dispatchFrames c fs).1.listeners_frame = c.listeners_frame ∧
    (dispatchFrames c fs).1.alive = c.alive ∧
    (dispatchFrames c fs).1.block_frame = c.block_frame := by
  induction fs generalizing c with
  | nil => simp [dispatchFrames]
  | cons f fs ih =>
    have h := ih (dispatchFrame c f).1
    simpa [dispatchFrames, dispatchFrame] using h

theorem dispatchFrames_trace (c : Client) (fs : List Frame) :
    (dispatchFrames c fs).2 = fs.flatMap (fun f =>
      Event.cacheUpdate f ::
        c.listeners_frame.map (fun l => Event.emit l (some f))) := by
  induction fs generalizing c with
  | nil => simp [dispatchFrames]
  | cons f fs ih =>
    have hl : (dispatchFrame c f).1.listeners_frame = c.listeners_frame := by
      simp [dispatchFrame]
    have h := ih (dispatchFrame c f).1
    rw [hl] at h
    show (dispatchFrame c f).2 ++ (dispatchFrames (dispatchFrame c f).1 fs).2 = _
    rw [h]
    simp [dispatchFrame]

/-- C1: over any schedule of successful reads, each decoded frame first
updates the last-frame cache and resolution and is then delivered to every
registered frame listener synchronously in registration order, and the
frames reach the listeners exactly in decode order (the concatenation of
the packets' frame lists, read by read). -/
theorem frame_delivery_order (c : Client) (h : c.alive = true)
    (pss : List (List (List Frame))) :
    (streamLoop c (pss.map (fun ps => ⟨.data ps, false⟩))).2.1 =
      (pss.map List.flatten).flatten.flatMap (fun f =>
        Event.cacheUpdate f ::
          c.listeners_frame.map (fun l => Event.emit l (some f))) := by
  induction pss generalizing c with
  | nil => simp [streamLoop]
  | cons ps rest ih =>
    obtain ⟨hl, ha, _⟩ := dispatchFrames_fields c ps.flatten
    rw [h] at ha
    have hrec := ih (dispatchFrames c ps.flatten).1 ha
    rw [hl] at hrec
    simp [streamLoop, h, applyStop, hrec, dispatchFrames_trace]

theorem frame_delivery_order_witness :
    (streamLoop { Client.mkFresh with alive := true, listeners_frame := [4, 5] }
        [⟨.data [[⟨2, 3, 11⟩], [⟨2, 3, 12⟩]], false⟩,
          ⟨.data [[⟨2, 3, 13⟩]], false⟩]).2.1 =
      [Event.cacheUpdate ⟨2, 3, 11⟩, .emit 4 (some ⟨2, 3, 11⟩),
        .emit 5 (some ⟨2, 3, 11⟩),
        .cacheUpdate ⟨2, 3, 12⟩, .emit 4 (some ⟨2, 3, 12⟩),
        .emit 5 (some ⟨2, 3, 12⟩),
        .cacheUpdate ⟨2, 3, 13⟩, .emit 4 (some ⟨2, 3, 13⟩),
        .emit 5 (some ⟨2, 3, 13⟩)] := by
  have h := frame_delivery_order
    { Client.mkFresh with alive := true, listeners_frame := [4, 5] } rfl
    [[[⟨2, 3, 11⟩], [⟨2, 3, 12⟩]], [[⟨2, 3, 13⟩]]]
  simpa using h

theorem connectLoop_succ (env : Nat → Bool) (i fuel : Nat) :
    connectLoop env i (fuel + 1) =
      if env i then ([.openVideoAttempt true], true)
      else
        (.openVideoAttempt false :: .sleep100ms :: (connectLoop env (i + 1) fuel).1,
          (connectLoop env (i + 1) fuel).2) := rfl

theorem connectLoop_first (env : Nat → Bool) (henv : env 0 = true) :
    connectLoop env 0 30 = ([.openVideoAttempt true], true) := by
  have h1 : connectLoop env 0 30 = connectLoop env 0 (29 + 1) := rfl
  rw [h1, connectLoop_succ, henv]
  simp

/-- C3: a handshake byte stream of one dummy byte, 64 name bytes and 4
resolution bytes yields the name bytes UTF-8 decoded with trailing NULs
stripped as device name, and the resolution bytes read as two big-endian
unsigned 16-bit integers; a name that is empty after trimming is a fatal
`ConnectionError`. -/
theorem handshake_parsing (env : Nat → Bool) (henv : env 0 = true)
    (c : Client) (d : Nat) (name64 res4 : List Nat) (h64 : name64.length = 64)
    (a b a2 b2 : Nat) (hres : res4 = [a, b, a2, b2]) (cs : List Char)
    (hdec : utf8Decode name64 = some cs) :
    (rstripNull cs ≠ [] →
      (initServerConnection env (d :: (name64 ++ res4)) c).2.2 = .ok () ∧
      (initServerConnection env (d :: (name64 ++ res4)) c).1.device_name =
        some (rstripNull cs) ∧
      (initServerConnection env (d :: (name64 ++ res4)) c).1.resolution =
        some (a * 256 + b, a2 * 256 + b2)) ∧
    (rstripNull cs = [] →
      (initServerConnection env (d :: (name64 ++ res4)) c).2.2 =
        .error .noDeviceName ∧
      HsError.isConnectionError .noDeviceName = true) := by
  subst hres
  have htake : (name64 ++ [a, b, a2, b2]).take 64 = name64 := List.take_left' h64
  have hdrop : (name64 ++ [a, b, a2, b2]).drop 64 = [a, b, a2, b2] :=
    List.drop_left' h64
  have ht1 : (d :: (name64 ++ [a, b, a2, b2])).take 1 = [d] := rfl
  have hd1 : (d :: (name64 ++ [a, b, a2, b2])).drop 1 = name64 ++ [a, b, a2, b2] :=
    rfl
  have ht4 : ([a, b, a2, b2] : List ℕ).take 4 = [a, b, a2, b2] := rfl
  constructor
  · intro hne
    have hlen : ¬(rstripNull cs).length = 0 := by
      simpa [List.length_eq_zero] using hne
    simp only [initServerConnection, connectLoop_first env henv, ht1, hd1,
      htake, hdrop, ht4, hdec]
    simp [hlen]
  · intro he
    have hlen : (rstripNull cs).length = 0 := by
      simpa [List.length_eq_zero] using he
    simp only [initServerConnection, connectLoop_first env henv, ht1, hd1,
      htake, hdrop, ht4, hdec]
    simp [hlen, HsError.isConnectionError]

theorem handshake_parsing_witness :
    ((rstripNull ('A' :: List.replicate 63 (Char.ofNat 0)) ≠ [] →
      (initServerConnection (fun _ => true)
        (0 :: ((65 :: List.replicate 63 0) ++ [0, 100, 0, 200]))
        Client.mkFresh).2.2 = .ok () ∧
      (initServerConnection (fun _ => true)
        (0 :: ((65 :: List.replicate 63 0) ++ [0, 100, 0, 200]))
        Client.mkFresh).1.device_name =
        some (rstripNull ('A' :: List.replicate 63 (Char.ofNat 0))) ∧
      (initServerConnection (fun _ => true)
        (0 :: ((65 :: List.replicate 63 0) ++ [0, 100, 0, 200]))
        Client.mkFresh).1.resolution =
        some (0 * 256 + 100, 0 * 256 + 200)) ∧
    (rstripNull ('A' :: List.replicate 63 (Char.ofNat 0)) = [] →
      (initServerConnection (fun _ => true)
        (0 :: ((65 :: List.replicate 63 0) ++ [0, 100, 0, 200]))
        Client.mkFresh).2.2 = .error .noDeviceName ∧
      HsError.isConnectionError .noDeviceName = true)) :=
  handshake_parsing (fun _ => true) rfl Client.mkFresh 0
    (65 :: List.replicate 63 0) [0, 100, 0, 200] (by simp) 0 100 0 200 rfl
    ('A' :: List.replicate 63 (Char.ofNat 0)) (by decide)

theorem connectLoop_all_fail (env : Nat → Bool) :
    ∀ fuel i, (∀ j, j < fuel → env (i + j) = false) →
      connectLoop env i fuel =
        ((List.replicate fuel
          [HsEvent.openVideoAttempt false, .sleep100ms]).flatten, false) := by
  intro fuel
  induction fuel with
  | zero => intro i _; rfl
  | succ n ih =>
    intro i hf
    have h0 : env i = false := by simpa using hf 0 (Nat.succ_pos n)
    have hrec := ih (i + 1) (fun j hj => by
      have := hf (j + 1) (Nat.succ_lt_succ hj)
      simpa [Nat.add_assoc, Nat.add_comm 1 j] using this)
    rw [connectLoop_succ, h0, hrec]
    simp [List.replicate_succ]

/-- C4: when every channel-open attempt fails, the handshake makes exactly
30 attempts, each followed by a 100 ms sleep, then `start()` fails with a
`ConnectionError`, and the control socket was never set. -/
theorem connect_timeout (env : Nat → Bool) (buf : List Nat) (c : Client)
    (halive : c.alive = false) (hctrl : c.control_socket = none)
    (hfail : ∀ i, i < 30 → env i = false) :
    (start env buf c).result = .error (.hs .connectTimeout) ∧
    HsError.isConnectionError .connectTimeout = true ∧
    (start env buf c).client.control_socket = none ∧
    (start env buf c).hsTrace =
      (List.replicate 30 [HsEvent.openVideoAttempt false, .sleep100ms]).flatten := by
  have hc : connectLoop env 0 30 =
      ((List.replicate 30
        [HsEvent.openVideoAttempt false, .sleep100ms]).flatten, false) :=
    connectLoop_all_fail env 30 0 (fun j hj => by simpa using hfail j hj)
  simp [start, halive, initServerConnection, hc, deployServer, hctrl,
    HsError.isConnectionError]

theorem connect_timeout_witness :
    (start (fun _ => false) [] Client.mkFresh).result =
      .error (.hs .connectTimeout) ∧
    HsError.isConnectionError .connectTimeout = true ∧
    (start (fun _ => false) [] Client.mkFresh).client.control_socket = none ∧
    (start (fun _ => false) [] Client.mkFresh).hsTrace =
      (List.replicate 30
        [HsEvent.openVideoAttempt false, .sleep100ms]).flatten :=
  connect_timeout (fun _ => false) [] Client.mkFresh rfl rfl (fun _ _ => rfl)

theorem initServerConnection_preserves (env : Nat → Bool) (buf : List Nat)
    (c : Client) :
    (initServerConnection env buf c).1.alive = c.alive ∧
    (initServerConnection env buf c).1.listeners_init = c.listeners_init := by
  simp only [initServerConnection]
  constructor <;> (repeat' split) <;> simp_all

/-- C5 is false as stated: a session that was stopped is in the Stopped
state with `alive` cleared, so the `assert self.alive is False` gate in
`start()` passes and the session starts successfully a second time
without constructing a new one. -/
theorem start_after_stop_counterexample :
    (Client.stop
      { Client.mkFresh with
        alive := true
        phase := .started
        server_stream := some Sock.fresh
        video_socket := some Sock.fresh
        control_socket := some Sock.fresh }).phase = .stopped ∧
    (start (fun _ => true)
      (0 :: ((65 :: List.replicate 63 0) ++ [0, 100, 0, 200]))
      (Client.stop
        { Client.mkFresh with
          alive := true
          phase := .started
          server_stream := some Sock.fresh
          video_socket := some Sock.fresh
          control_socket := some Sock.fresh })).result = .ok () := by
  exact ⟨rfl, rfl⟩

/-- C5 (amended): a fresh session is in Created with `alive` false;
`start()` is permitted exactly when `alive` is false (so also on a
stopped session); `alive` becomes true only when the full handshake
succeeded; and on any handshake failure `start()` propagates the error,
`alive` stays false, and no init listener is invoked (on success they all
fire, in registration order). -/
theorem start_state_machine (env : Nat → Bool) (buf : List Nat) (c : Client) :
    (Client.mkFresh.phase = .created ∧ Client.mkFresh.alive = false) ∧
    (c.alive = true → start env buf c = ⟨c, [], [], .error .assertFailed⟩) ∧
    (c.alive = false →
      (start env buf c).result ≠ .error .assertFailed ∧
      ((start env buf c).client.alive = true ↔
        (start env buf c).result = .ok ()) ∧
      ((start env buf c).result ≠ .ok () → (start env buf c).initCalls = []) ∧
      ((start env buf c).result = .ok () →
        (start env buf c).initCalls = c.listeners_init)) := by
  refine ⟨⟨rfl, rfl⟩, ?_, ?_⟩
  · intro h
    simp [start, h]
  · intro h
    have hpres := initServerConnection_preserves env buf (deployServer c)
    rcases hres : initServerConnection env buf (deployServer c) with ⟨c2, tr, r⟩
    rw [hres] at hpres
    obtain ⟨ha, hl⟩ := hpres
    simp [deployServer] at ha hl
    cases r with
    | error e =>
      have hc2 : c2.alive = false := ha.trans h
      simp [start, h, hres, hc2]
    | ok u =>
      cases u
      simp [start, h, hres, hl]

theorem start_state_machine_witness :
    start (fun _ => true) [] { Client.mkFresh with alive := true } =
      ⟨{ Client.mkFresh with alive := true }, [], [], .error .assertFailed⟩ :=
  (start_state_machine (fun _ => true) [] { Client.mkFresh with alive := true }).2.1
    rfl

theorem connectLoop_events (env : Nat → Bool) :
    ∀ fuel i, ∀ e ∈ (connectLoop env i fuel).1,
      e = .openVideoAttempt true ∨ e = .openVideoAttempt false ∨
        e = .sleep100ms := by
  intro fuel
  induction fuel with
  | zero => intro i e he; simp [connectLoop] at he
  | succ n ih =>
    intro i e he
    rw [connectLoop_succ] at he
    by_cases h : env i
    · rw [if_pos h] at he
      simp at he
      exact .inl he
    · rw [if_neg h] at he
      simp at he
      rcases he with h1 | h1 | h1
      · exact .inr (.inl h1)
      · exact .inr (.inr h1)
      · exact ih (i + 1) e h1

theorem recv_not_mem_connect (env : Nat → Bool) (fuel i n : Nat)
    (got : List Nat) :
    HsEvent.recvVideo n got ∉ (connectLoop env i fuel).1 := by
  intro hmem
  rcases connectLoop_events env fuel i _ hmem with h | h | h <;> simp at h

theorem countOpenControl_append (l1 l2 : List HsEvent) :
    countOpenControl (l1 ++ l2) = countOpenControl l1 + countOpenControl l2 := by
  induction l1 with
  | nil => simp [countOpenControl]
  | cons e r ih => cases e <;> simp [countOpenControl, ih] <;> omega

theorem countOpenControl_connect (env : Nat → Bool) :
    ∀ fuel i, countOpenControl (connectLoop env i fuel).1 = 0 := by
  intro fuel
  induction fuel with
  | zero => intro i; rfl
  | succ n ih =>
    intro i
    rw [connectLoop_succ]
    by_cases h : env i
    · rw [if_pos h]; rfl
    · rw [if_neg h]
      simpa [countOpenControl] using ih (i + 1)

theorem scan_connect (env : Nat → Bool) :
    ∀ fuel i (l : List HsEvent),
      controlOpensAfterDummy ((connectLoop env i fuel).1 ++ l) =
        controlOpensAfterDummy l := by
  intro fuel
  induction fuel with
  | zero => intro i l; rfl
  | succ n ih =>
    intro i l
    rw [connectLoop_succ]
    by_cases h : env i
    · rw [if_pos h]
      simp [controlOpensAfterDummy]
    · rw [if_neg h]
      simpa [controlOpensAfterDummy] using ih (i + 1) l

/-- C7: during the handshake the control channel is opened at most once
and never before a one-byte dummy read returned a byte (exactly once on a
successful handshake); if the dummy read returns zero bytes, the
handshake fails with the dummy-byte `ConnectionError` and the control
socket is never opened. -/
theorem dummy_before_control (env : Nat → Bool) (buf : List Nat) (c : Client) :
    controlOpensAfterDummy (initServerConnection env buf c).2.1 = true ∧
    countOpenControl (initServerConnection env buf c).2.1 ≤ 1 ∧
    ((initServerConnection env buf c).2.2 = .ok () →
      countOpenControl (initServerConnection env buf c).2.1 = 1) ∧
    (HsEvent.recvVideo 1 [] ∈ (initServerConnection env buf c).2.1 →
      (initServerConnection env buf c).2.2 = .error .noDummyByte ∧
      countOpenControl (initServerConnection env buf c).2.1 = 0 ∧
      (initServerConnection env buf c).1.control_socket = c.control_socket) := by
  have hct := countOpenControl_connect env 30 0
  by_cases hconn : (connectLoop env 0 30).2 = false
  · have hr : initServerConnection env buf c =
        (c, (connectLoop env 0 30).1, .error .connectTimeout) := by
      simp [initServerConnection, hconn]
    rw [hr]
    refine ⟨by simpa using scan_connect env 30 0 [], by simp [hct], by simp, ?_⟩
    intro hmem
    exact absurd hmem (recv_not_mem_connect env 30 0 1 [])
  · simp only [Bool.not_eq_false] at hconn
    rcases buf with _ | ⟨d, rest⟩
    · have hr : initServerConnection env [] c =
          ({ c with video_socket := some Sock.fresh },
            (connectLoop env 0 30).1 ++ [.recvVideo 1 []],
            .error .noDummyByte) := by
        simp [initServerConnection, hconn]
      rw [hr]
      refine ⟨?_, ?_, by simp, ?_⟩
      · show controlOpensAfterDummy
          ((connectLoop env 0 30).1 ++ [.recvVideo 1 []]) = true
        rw [scan_connect env 30 0]
        rfl
      · show countOpenControl
          ((connectLoop env 0 30).1 ++ [.recvVideo 1 []]) ≤ 1
        simp [countOpenControl_append, hct, countOpenControl]
      · intro _
        refine ⟨rfl, ?_, rfl⟩
        show countOpenControl
          ((connectLoop env 0 30).1 ++ [.recvVideo 1 []]) = 0
        simp [countOpenControl_append, hct, countOpenControl]
    · have ht1 : (d :: rest).take 1 = [d] := rfl
      have hd1 : (d :: rest).drop 1 = rest := rfl
      have hne : ¬((connectLoop env 0 30).2 = false) := by simp [hconn]
      have hlen : ¬(([d] : List Nat).length = 0) := by simp
      simp only [initServerConnection]
      rw [if_neg hne, ht1, if_neg hlen, hd1]
      refine ⟨?_, ?_, ?_, ?_⟩
      · repeat' split
        all_goals
          first
          | (show controlOpensAfterDummy ((connectLoop env 0 30).1 ++ _) = true
             rw [scan_connect env 30 0]
             rfl)
          | simp [scan_connect env 30 0, controlOpensAfterDummy]
      · repeat' split
        all_goals simp [countOpenControl_append, hct, countOpenControl]
      · repeat' split
        all_goals
          intro hok
        all_goals try simp at hok
        all_goals simp [countOpenControl_append, hct, countOpenControl]
      · repeat' split
        all_goals
          intro hmem
          exfalso
          simp [recv_not_mem_connect env 30 0] at hmem

theorem dummy_before_control_witness :
    controlOpensAfterDummy (initServerConnection (fun _ => true)
      (0 :: ((65 :: List.replicate 63 0) ++ [0, 100, 0, 200]))
      Client.mkFresh).2.1 = true ∧
    countOpenControl (initServerConnection (fun _ => true)
      (0 :: ((65 :: List.replicate 63 0) ++ [0, 100, 0, 200]))
      Client.mkFresh).2.1 ≤ 1 ∧
    ((initServerConnection (fun _ => true)
      (0 :: ((65 :: List.replicate 63 0) ++ [0, 100, 0, 200]))
      Client.mkFresh).2.2 = .ok () →
      countOpenControl (initServerConnection (fun _ => true)
        (0 :: ((65 :: List.replicate 63 0) ++ [0, 100, 0, 200]))
        Client.mkFresh).2.1 = 1) ∧
    (HsEvent.recvVideo 1 [] ∈ (initServerConnection (fun _ => true)
      (0 :: ((65 :: List.replicate 63 0) ++ [0, 100, 0, 200]))
      Client.mkFresh).2.1 →
      (initServerConnection (fun _ => true)
        (0 :: ((65 :: List.replicate 63 0) ++ [0, 100, 0, 200]))
        Client.mkFresh).2.2 = .error .noDummyByte ∧
      countOpenControl (initServerConnection (fun _ => true)
        (0 :: ((65 :: List.replicate 63 0) ++ [0, 100, 0, 200]))
        Client.mkFresh).2.1 = 0 ∧
      (initServerConnection (fun _ => true)
        (0 :: ((65 :: List.replicate 63 0) ++ [0, 100, 0, 200]))
        Client.mkFresh).1.control_socket = Client.mkFresh.control_socket) :=
  dummy_before_control (fun _ => true)
    (0 :: ((65 :: List.replicate 63 0) ++ [0, 100, 0, 200])) Client.mkFresh

/-! ### Mutual-exclusion invariant for concurrent sends (C9) -/

theorem inv_init (r0 r1 : List Nat) : Inv r0 r1 CState.init := by
  refine ⟨?_, ?_, ?_, ?_, ?_, ?_, ?_⟩ <;> simp [CState.init, wrOf]

theorem inv_step {r0 r1 : List Nat} {s s' : CState} (hstep : CStep r0 r1 s s')
    (hinv : Inv r0 r1 s) : Inv r0 r1 s' := by
  obtain ⟨i1, i2, i3, i4, i5, i6, i7⟩ := hinv
  cases hstep with
  | acquire0 hl h0 =>
    refine ⟨?_, ?_, ?_, ?_, ?_, ?_, ?_⟩
    · intro w rest hw
      simp only [TStatus.writing.injEq] at hw
      obtain ⟨h1, h2⟩ := hw
      subst h1
      subst h2
      exact ⟨rfl, by simp⟩
    · intro w rest hw
      have hlk := (i2 w rest hw).1
      rw [hl] at hlk
      cases hlk
    · intro w hw
      simp at hw
    · intro w hw
      exact i4 w hw
    · intro _
      have hout : s.out = wrOf s.th1 := by
        rcases i7 hl with h | h
        · rw [h, h0]; simp [wrOf]
        · rw [h, h0]; simp [wrOf]
      show s.out = wrOf s.th1 ++ wrOf (TStatus.writing [] r0)
      rw [hout]
      simp [wrOf]
    · intro h
      simp at h
    · intro h
      simp at h
  | write0 w b rest hw =>
    obtain ⟨hl, hr⟩ := i1 w (b :: rest) hw
    refine ⟨?_, ?_, ?_, ?_, ?_, ?_, ?_⟩
    · intro w2 rest2 hw2
      simp only [TStatus.writing.injEq] at hw2
      obtain ⟨h1, h2⟩ := hw2
      subst h1
      subst h2
      exact ⟨hl, by rw [hr]; simp⟩
    · intro w2 rest2 hw2
      have hlk := (i2 w2 rest2 hw2).1
      rw [hl] at hlk
      cases hlk
    · intro w2 hw2
      simp at hw2
    · intro w2 hw2
      exact i4 w2 hw2
    · intro _
      show s.out ++ [b] = wrOf s.th1 ++ wrOf (TStatus.writing (w ++ [b]) rest)
      rw [i5 hl, hw]
      simp [wrOf]
    · intro h
      replace h : s.lock = LockSt.held1 := h
      rw [hl] at h
      cases h
    · intro h
      replace h : s.lock = LockSt.free := h
      rw [hl] at h
      cases h
  | release0 w hw =>
    obtain ⟨hl, hr⟩ := i1 w [] hw
    have hwr : w = r0 := by simpa using hr.symm
    refine ⟨?_, ?_, ?_, ?_, ?_, ?_, ?_⟩
    · intro w2 rest2 hw2
      simp at hw2
    · intro w2 rest2 hw2
      have hlk := (i2 w2 rest2 hw2).1
      rw [hl] at hlk
      cases hlk
    · intro w2 hw2
      simp only [TStatus.done.injEq] at hw2
      subst hw2
      exact hwr
    · intro w2 hw2
      exact i4 w2 hw2
    · intro h
      simp at h
    · intro h
      simp at h
    · intro _
      right
      show s.out = wrOf s.th1 ++ wrOf (TStatus.done w)
      rw [i5 hl, hw]
      simp [wrOf]
  | acquire1 hl h1 =>
    refine ⟨?_, ?_, ?_, ?_, ?_, ?_, ?_⟩
    · intro w rest hw
      have hlk := (i1 w rest hw).1
      rw [hl] at hlk
      cases hlk
    · intro w rest hw
      simp only [TStatus.writing.injEq] at hw
      obtain ⟨h1', h2'⟩ := hw
      subst h1'
      subst h2'
      exact ⟨rfl, by simp⟩
    · intro w hw
      exact i3 w hw
    · intro w hw
      simp at hw
    · intro h
      simp at h
    · intro _
      have hout : s.out = wrOf s.th0 := by
        rcases i7 hl with h | h
        · rw [h, h1]; simp [wrOf]
        · rw [h, h1]; simp [wrOf]
      show s.out = wrOf s.th0 ++ wrOf (TStatus.writing [] r1)
      rw [hout]
      simp [wrOf]
    · intro h
      simp at h
  | write1 w b rest hw =>
    obtain ⟨hl, hr⟩ := i2 w (b :: rest) hw
    refine ⟨?_, ?_, ?_, ?_, ?_, ?_, ?_⟩
    · intro w2 rest2 hw2
      have hlk := (i1 w2 rest2 hw2).1
      rw [hl] at hlk
      cases hlk
    · intro w2 rest2 hw2
      simp only [TStatus.writing.injEq] at hw2
      obtain ⟨h1, h2⟩ := hw2
      subst h1
      subst h2
      exact ⟨hl, by rw [hr]; simp⟩
    · intro w2 hw2
      exact i3 w2 hw2
    · intro w2 hw2
      simp at hw2
    · intro h
      replace h : s.lock = LockSt.held0 := h
      rw [hl] at h
      cases h
    · intro _
      show s.out ++ [b] = wrOf s.th0 ++ wrOf (TStatus.writing (w ++ [b]) rest)
      rw [i6 hl, hw]
      simp [wrOf]
    · intro h
      replace h : s.lock = LockSt.free := h
      rw [hl] at h
      cases h
  | release1 w hw =>
    obtain ⟨hl, hr⟩ := i2 w [] hw
    have hwr : w = r1 := by simpa using hr.symm
    refine ⟨?_, ?_, ?_, ?_, ?_, ?_, ?_⟩
    · intro w2 rest2 hw2
      have hlk := (i1 w2 rest2 hw2).1
      rw [hl] at hlk
      cases hlk
    · intro w2 rest2 hw2
      simp at hw2
    · intro w2 hw2
      exact i3 w2 hw2
    · intro w2 hw2
      simp only [TStatus.done.injEq] at hw2
      subst hw2
      exact hwr
    · intro h
      simp at h
    · intro h
      simp at h
    · intro _
      left
      show s.out = wrOf s.th0 ++ wrOf (TStatus.done w)
      rw [i6 hl, hw]
      simp [wrOf]

theorem creach_inv {r0 r1 : List Nat} {s : CState} (h : CReach r0 r1 s) :
    Inv r0 r1 s := by
  induction h with
  | init => exact inv_init r0 r1
  | step _ hstep ih => exact inv_step hstep ih

/-- C9: under the lock-guarded write protocol, any interleaving in which
both concurrent `send` calls finished leaves the control socket carrying
one full record followed contiguously by the other — the bytes of the two
records never interleave. -/
theorem send_no_interleave (r0 r1 w0 w1 : List Nat) (s : CState)
    (h : CReach r0 r1 s) (h0 : s.th0 = .done w0) (h1 : s.th1 = .done w1) :
    s.out = r0 ++ r1 ∨ s.out = r1 ++ r0 := by
  obtain ⟨i1, i2, i3, i4, i5, i6, i7⟩ := creach_inv h
  have hw0 : w0 = r0 := i3 w0 h0
  have hw1 : w1 = r1 := i4 w1 h1
  cases hlock : s.lock with
  | free =>
    rcases i7 hlock with hout | hout
    · left
      rw [hout, h0, h1]
      simp [wrOf, hw0, hw1]
    · right
      rw [hout, h0, h1]
      simp [wrOf, hw0, hw1]
  | held0 =>
    right
    rw [i5 hlock, h0, h1]
    simp [wrOf, hw0, hw1]
  | held1 =>
    left
    rw [i6 hlock, h0, h1]
    simp [wrOf, hw0, hw1]

theorem send_no_interleave_witness :
    (CState.mk .free [1, 2, 3] (.done [1, 2]) (.done [3])).out =
      [1, 2] ++ [3] ∨
    (CState.mk .free [1, 2, 3] (.done [1, 2]) (.done [3])).out =
      [3] ++ [1, 2] :=
  send_no_interleave [1, 2] [3] [1, 2] [3] _
    (CReach.step (CReach.step (CReach.step (CReach.step (CReach.step
      (CReach.step (CReach.step CReach.init
        (CStep.acquire0 _ rfl rfl))
        (CStep.write0 _ [] 1 [2] rfl))
        (CStep.write0 _ [1] 2 [] rfl))
        (CStep.release0 _ [1, 2] rfl))
        (CStep.acquire1 _ rfl rfl))
        (CStep.write1 _ [] 3 [] rfl))
        (CStep.release1 _ [3] rfl))
    rfl rfl

end Pyscrcpy
